import Mathlib

/-!
# Verification of the stratus-updatetracker core (src/custom/custom.c)

Shallow embedding of the update-tracker core: the field extractor
`parse_json_value`, the poll tick `check_update_status`, the bootstrap
`ensure_update_json_exists`, the simulator `simulate_update_cycle`, and the
file-access helpers `read_file_contents` / `write_file_contents`.

C strings are modelled as `List Char` / `String` (no interior NUL semantics
except where noted), C `int`/`int64_t` as `Int`, `size_t` as `Nat`.  I/O is
modelled by passing the environment's answers (timestamps, file contents,
open results) as explicit inputs, and by returning a trace of the
operations a call performs, in source order.
-/

namespace UpdateTracker

/-! ## Field extractor: `parse_json_value` (custom.c lines 197-255) -/

/-- Whitespace skipped after the colon: `' '`, `'\t'`, `'\n'`, `'\r'`
(custom.c line 219). -/
def jsonWsC (c : Char) : Bool :=
  c = ' ' || c = '\t' || c = '\n' || c = '\r'

/-- Terminators of a bare (unquoted) value: comma, closing brace, space,
tab, LF, CR (custom.c lines 241-242); end of input terminates as well. -/
def bareTermC (c : Char) : Bool :=
  c = ',' || c = '\x7d' || c = ' ' || c = '\t' || c = '\n' || c = '\r'

/-- `snprintf(search_key, 64, "\"%s\"", key)`: the quoted key, truncated to
63 characters (the buffer is 64 bytes). -/
def search_key (key : String) : List Char :=
  (('"' :: key.data) ++ ['"']).take 63

/-- `strstr` followed by advancing past the match: the suffix of `hay`
immediately after the first occurrence of `needle`; `none` when `needle`
does not occur (custom.c lines 206-209, 212). -/
def dropAfterSubstr (hay needle : List Char) : Option (List Char) :=
  if needle.isPrefixOf hay then some (hay.drop needle.length)
  else
    match hay with
    | [] => none
    | _ :: rest => dropAfterSubstr rest needle

/-- `strchr(p, c)`: the suffix of `l` starting at the first occurrence of
`t`, `none` when absent (custom.c line 212). -/
def dropToChar (l : List Char) (t : Char) : Option (List Char) :=
  match l with
  | [] => none
  | c :: rest => if c = t then some (c :: rest) else dropToChar rest t

/-- `strchr(value_start, '"')` and taking the text strictly before it:
the characters of `l` before the first occurrence of `t`, `none` when `t`
does not occur (custom.c lines 226-232). -/
def takeBeforeChar (l : List Char) (t : Char) : Option (List Char) :=
  match l with
  | [] => none
  | c :: rest => if c = t then some [] else (takeBeforeChar rest t).map (c :: ·)

/-- The copy into the destination buffer (custom.c lines 232-237, 246-251):
`if (len >= max_len) len = max_len - 1;` then copy `len` bytes. -/
def truncCopy (l : List Char) (max_len : Nat) : List Char :=
  if l.length ≥ max_len then l.take (max_len - 1) else l

/-- The value scan that runs from the colon on (custom.c lines 217-252):
skip the colon, skip whitespace, then either the quoted-string path
(fails without a closing quote) or the bare-token path. -/
def parse_after_colon (colonSuf : List Char) (max_len : Nat) : Option String :=
  let value_start := List.dropWhile jsonWsC (colonSuf.drop 1)
  if value_start.head? = some '"' then
    match takeBeforeChar (value_start.drop 1) '"' with
    | none => none
    | some v => some (String.mk (truncCopy v max_len))
  else
    some (String.mk (truncCopy (List.takeWhile (fun c => !bareTermC c) value_start) max_len))

/-- `parse_json_value` (custom.c lines 197-255): locate the first occurrence
of the quoted key (fail if absent), locate the next colon (fail if absent),
then scan the value.  `none` models returning `false` with the destination
untouched; `some v` models returning `true` with `v` in the destination. -/
def parse_json_value (json key : String) (max_len : Nat) : Option String :=
  (dropAfterSubstr json.data (search_key key)).bind fun afterKey =>
  (dropToChar afterKey ':').bind fun colonSuf =>
  parse_after_colon colonSuf max_len

/-! ## `atoi` (used at custom.c line 303) -/

/-- `isspace` as C's `atoi` uses it: space, tab, LF, VT, FF, CR. -/
def isSpaceByte (c : Char) : Bool :=
  c = ' ' || c = '\t' || c = '\n' || c = Char.ofNat 11 || c = Char.ofNat 12 || c = '\r'

/-- The digit-accumulation loop of `atoi`. -/
def atoiDigits : List Char → Nat → Nat
  | c :: rest, acc => if c.isDigit then atoiDigits rest (acc * 10 + (c.toNat - 48)) else acc
  | [], acc => acc

/-- C `atoi`: skip whitespace, optional sign, leading digits; `0` when no
digits follow. -/
def atoi (s : String) : Int :=
  let l := List.dropWhile isSpaceByte s.data
  match l with
  | '-' :: rest => -(atoiDigits rest 0 : Int)
  | '+' :: rest => (atoiDigits rest 0 : Int)
  | _ => (atoiDigits l 0 : Int)

/-! ## Data model (custom.c lines 60-93) -/

/-- `update_status_t` (custom.c lines 66-70): `progress` is a C `int`,
`status` and `step` are 64-byte C strings. -/
structure update_status_t where
  progress : Int
  status : String
  step : String
deriving DecidableEq

/-- Initial value of the static `current_status`
(custom.c line 93): `{0, "System Ready", "Waiting for update"}`. -/
def current_status_init : update_status_t :=
  ⟨0, "System Ready", "Waiting for update"⟩

/-- The process-wide mutable state read and written by a poll tick:
the statics `last_modified_time` (line 91), `current_status` (line 93) and
`check_update_status`'s local static `last_log_time` (line 267). -/
structure WatchState where
  last_modified_time : Int
  current_status : update_status_t
  last_log_time : Int
deriving DecidableEq

/-- The environment's answers consumed by one poll tick:
`get_file_timestamp`'s result, the current wall-clock time in ms, and the
file's openability and content (consumed by `read_file_contents`). -/
structure TickEnv where
  file_time : Int
  current_time : Int
  openOk : Bool
  fileContent : List Char
deriving DecidableEq

/-- Observable operations a tick performs, in source order. -/
inductive TickOp where
  | setLmt (t : Int)
  | readFile
  | replaceStatus (s : update_status_t)
  | diagWaiting (t : Int)
  | diagReadError
deriving DecidableEq

/-- `JSON_BUFFER_SIZE` (custom.c line 60). -/
def JSON_BUFFER_SIZE : Nat := 512

/-! ## File access adapter (custom.c lines 118-192, non-Zephyr branches) -/

/-- `read_file_contents` (custom.c lines 138-149): fail when the open
fails; otherwise `fread` up to `max_size - 1` bytes and report success
exactly when `bytes_read > 0`.  `some bytes` carries the bytes read. -/
def read_file_contents (openOk : Bool) (content : List Char) (max_size : Nat) :
    Option (List Char) :=
  if openOk = false then none
  else
    let bytes := content.take (max_size - 1)
    if bytes.length > 0 then some bytes else none

/-- The buffer as the C string the parser sees: `memset` zero-fills the
buffer first, so the string stops at the first NUL byte of the content. -/
def bufferString (bytes : List Char) : String :=
  String.mk (bytes.takeWhile (fun c => !(c = Char.ofNat 0)))

/-- Filesystem operations attempted by `write_file_contents`. -/
inductive FsOp where
  | openWrite (path : String)
  | makeDir (dir : String)
deriving DecidableEq

/-- The environment's answers consumed by `write_file_contents`: whether
the first and the retried `fopen(filepath, "wb")` succeed, and how many
bytes `fwrite` reports written when a stream was opened. -/
structure WriteEnv where
  open1 : Bool
  open2 : Bool
  bytesWritten : Nat
deriving DecidableEq

/-- `write_file_contents` (custom.c lines 170-191): open for write; on
failure `mkdir("tmp", 0777)` and retry the open once; fail when both opens
fail; otherwise succeed exactly when `fwrite` wrote `strlen(content)`
bytes.  Returns the result and the trace of attempted operations. -/
def write_file_contents (filepath content : String) (env : WriteEnv) :
    Bool × List FsOp :=
  if env.open1 then
    (decide (env.bytesWritten = content.length), [FsOp.openWrite filepath])
  else if env.open2 then
    (decide (env.bytesWritten = content.length),
     [FsOp.openWrite filepath, FsOp.makeDir "tmp", FsOp.openWrite filepath])
  else
    (false, [FsOp.openWrite filepath, FsOp.makeDir "tmp", FsOp.openWrite filepath])

/-! ## Poll tick: `check_update_status` (custom.c lines 260-339) -/

/-- The parse phase (custom.c lines 302-311): start from the previous
status and overwrite each field only when its extraction succeeds
(`progress` through `atoi` with a 32-byte value buffer, `status` and `step`
with their 64-byte destination buffers). -/
def apply_parsed_fields (prev : update_status_t) (buffer : String) : update_status_t :=
  let s1 := match parse_json_value buffer "progress" 32 with
            | some v => { prev with progress := atoi v }
            | none => prev
  let s2 := match parse_json_value buffer "status" 64 with
            | some v => { s1 with status := v }
            | none => s1
  match parse_json_value buffer "step" 64 with
  | some v => { s2 with step := v }
  | none => s2

/-- One poll tick, `check_update_status` (custom.c lines 260-339).
Timestamp 0 (file absent): rate-limited diagnostic, nothing else.
Timestamp equal to `last_modified_time`: return.  Otherwise advance
`last_modified_time` first, then read; on read failure a diagnostic and
nothing else; on success build the new status field by field from a copy
of the current one and store it with a single full replacement. -/
def check_update_status (st : WatchState) (env : TickEnv) : WatchState × List TickOp :=
  if env.file_time = 0 then
    if env.current_time - st.last_log_time > 10000 then
      ({ st with last_log_time := env.current_time }, [TickOp.diagWaiting env.current_time])
    else (st, [])
  else if env.file_time ≠ st.last_modified_time then
    match read_file_contents env.openOk env.fileContent JSON_BUFFER_SIZE with
    | none =>
      ({ st with last_modified_time := env.file_time },
       [TickOp.setLmt env.file_time, TickOp.readFile, TickOp.diagReadError])
    | some bytes =>
      let newStatus := apply_parsed_fields st.current_status (bufferString bytes)
      ({ st with last_modified_time := env.file_time, current_status := newStatus },
       [TickOp.setLmt env.file_time, TickOp.readFile, TickOp.replaceStatus newStatus])
  else (st, [])

/-- A sequence of poll ticks: fold `check_update_status` over the per-tick
environments, concatenating the traces. -/
def foldTicks : WatchState → List TickEnv → WatchState × List TickOp
  | st, [] => (st, [])
  | st, e :: rest =>
    let r1 := check_update_status st e
    let r2 := foldTicks r1.1 rest
    (r2.1, r1.2 ++ r2.2)

/-- The reads in a trace. -/
def readCount (tr : List TickOp) : Nat :=
  (tr.filter (fun op => match op with | TickOp.readFile => true | _ => false)).length

/-- The status-store replacements in a trace. -/
def replaceCount (tr : List TickOp) : Nat :=
  (tr.filter (fun op => match op with | TickOp.replaceStatus _ => true | _ => false)).length

/-- The emission times of the waiting-for-file diagnostics in a trace. -/
def diagTimes (tr : List TickOp) : List Int :=
  tr.filterMap (fun op => match op with | TickOp.diagWaiting t => some t | _ => none)

/-! ## Bootstrap: `ensure_update_json_exists` (custom.c lines 367-388) -/

/-- The default content written on bootstrap (custom.c lines 376-380). -/
def default_json : String :=
  "\x7b\n    \"progress\": 0,\n    \"status\": \"System Ready\",\n    \"step\": \"Waiting for update\"\n\x7d\n"

/-- `ensure_update_json_exists` (custom.c lines 367-388), as a function of
the file's timestamp: nothing when the timestamp is non-zero (file exists);
otherwise the default content is written.  `some c` is the content handed
to `write_file_contents`. -/
def ensure_update_json_exists (ts : Int) : Option String :=
  if ts ≠ 0 then none else some default_json

/-! ## Simulator: `simulate_update_cycle` (custom.c lines 394-433) -/

/-- `update_steps` (custom.c lines 398-407). -/
def update_steps : List String :=
  ["Preparing for update", "Downloading packages", "Verifying download",
   "Installing updates", "Configuring system", "Finalizing installation",
   "Cleaning up", "Update complete."]

/-- `num_phases = sizeof(update_steps)/sizeof(update_steps[0])` (line 408). -/
def num_phases : Nat := update_steps.length

/-- One simulator tick (custom.c lines 394-433), as a function of the
static `update_phase`: compute the progress (clamped at 100), format the
blob, and advance the phase with wrap-around.  Returns the blob written to
the file and the next phase. -/
def simulate_update_cycle (update_phase : Nat) : String × Nat :=
  let progress0 := (update_phase * 100) / num_phases
  let progress := if progress0 > 100 then 100 else progress0
  let json_content :=
    "\x7b\n    \"progress\": " ++ toString progress ++
    ",\n    \"status\": \"System Updating...\",\n    \"step\": \"" ++
    update_steps.getD update_phase "" ++ "\"\n\x7d\n"
  (json_content, if update_phase + 1 ≥ num_phases then 0 else update_phase + 1)

/-- The phase before tick `k`, starting from phase 0 (`static int
update_phase = 0`, custom.c line 397). -/
def simPhase : Nat → Nat
  | 0 => 0
  | k + 1 => (simulate_update_cycle (simPhase k)).2

/-! ## Lemmas about the field extractor -/


lemma isDigit_ne {c x : Char} (h : c.isDigit = true) (hx : x.isDigit = false) : c ≠ x := by
  intro e; rw [e, hx] at h; exact Bool.noConfusion h

lemma digit_not_ws {c : Char} (h : c.isDigit = true) : jsonWsC c = false := by
  simp only [jsonWsC, Bool.or_eq_false_iff, decide_eq_false_iff_not]
  refine ⟨⟨⟨?_, ?_⟩, ?_⟩, ?_⟩ <;> exact isDigit_ne h (by decide)

lemma digit_not_term {c : Char} (h : c.isDigit = true) : bareTermC c = false := by
  simp only [bareTermC, Bool.or_eq_false_iff, decide_eq_false_iff_not]
  refine ⟨⟨⟨⟨⟨?_, ?_⟩, ?_⟩, ?_⟩, ?_⟩, ?_⟩ <;> exact isDigit_ne h (by decide)

lemma dropWhile_append_all {p : Char → Bool} :
    ∀ (ws l : List Char), (∀ c ∈ ws, p c = true) →
      List.dropWhile p (ws ++ l) = List.dropWhile p l
  | [], l, _ => rfl
  | c :: ws, l, h => by
    rw [List.cons_append, List.dropWhile_cons_of_pos (h c (List.mem_cons_self c ws))]
    exact dropWhile_append_all ws l (fun d hd => h d (List.mem_cons_of_mem c hd))

lemma takeWhile_append_stop {p : Char → Bool} :
    ∀ (ds tail : List Char), (∀ c ∈ ds, p c = true) →
      (∀ c t, tail = c :: t → p c = false) →
      List.takeWhile p (ds ++ tail) = ds
  | [], tail, _, ht => by
    cases tail with
    | nil => rfl
    | cons c t =>
      have hpc := ht c t rfl
      rw [List.nil_append]
      exact List.takeWhile_cons_of_neg (by simp [hpc])
  | d :: ds, tail, h, ht => by
    rw [List.cons_append, List.takeWhile_cons_of_pos (h d (List.mem_cons_self d ds))]
    rw [takeWhile_append_stop ds tail (fun c hc => h c (List.mem_cons_of_mem d hc)) ht]

lemma takeBeforeChar_append {t : Char} :
    ∀ (text tail : List Char), t ∉ text →
      takeBeforeChar (text ++ (t :: tail)) t = some text
  | [], tail, _ => by simp [takeBeforeChar]
  | c :: text, tail, h => by
    have hc : ¬ (c = t) := by
      intro e; subst e; exact h (List.mem_cons_self c text)
    have ih := takeBeforeChar_append text tail (fun hm => h (List.mem_cons_of_mem c hm))
    simp [takeBeforeChar, hc, ih]

lemma truncCopy_of_lt {l : List Char} {m : Nat} (h : l.length < m) : truncCopy l m = l := by
  unfold truncCopy; rw [if_neg (by omega)]

lemma parse_after_colon_bare (ws ds tail : List Char) (max_len : Nat)
    (hws : ∀ c ∈ ws, jsonWsC c = true)
    (hne : ds ≠ []) (hds : ∀ c ∈ ds, c.isDigit = true) (hlen : ds.length < max_len)
    (htail : ∀ c t, tail = c :: t → bareTermC c = true) :
    parse_after_colon (':' :: (ws ++ (ds ++ tail))) max_len = some (String.mk ds) := by
  obtain ⟨d, ds', rfl⟩ := List.exists_cons_of_ne_nil hne
  have hd : d.isDigit = true := hds d (List.mem_cons_self d ds')
  have hvs : List.dropWhile jsonWsC ((':' :: (ws ++ ((d :: ds') ++ tail))).drop 1)
      = d :: (ds' ++ tail) := by
    rw [List.drop_succ_cons, List.drop_zero, dropWhile_append_all ws _ hws,
      List.cons_append, List.dropWhile_cons_of_neg (by simp [digit_not_ws hd])]
  have hq : ¬ ((d :: (ds' ++ tail)).head? = some '"') := by
    simp only [List.head?_cons, Option.some.injEq]
    exact isDigit_ne hd (by decide)
  unfold parse_after_colon
  rw [hvs, if_neg hq]
  have htake : List.takeWhile (fun c => !bareTermC c) (d :: (ds' ++ tail)) = d :: ds' := by
    rw [show d :: (ds' ++ tail) = (d :: ds') ++ tail from by simp]
    refine takeWhile_append_stop _ _ (fun c hc => ?_) (fun c t hct => ?_)
    · rw [digit_not_term (hds c hc)]; rfl
    · rw [htail c t hct]; rfl
  rw [htake, truncCopy_of_lt hlen]

lemma parse_after_colon_string (ws text tail : List Char) (max_len : Nat)
    (hws : ∀ c ∈ ws, jsonWsC c = true)
    (hq : '"' ∉ text) (hlen : text.length < max_len) :
    parse_after_colon (':' :: (ws ++ ('"' :: (text ++ ('"' :: tail))))) max_len
      = some (String.mk text) := by
  have hvs : List.dropWhile jsonWsC
      ((':' :: (ws ++ ('"' :: (text ++ ('"' :: tail))))).drop 1)
      = '"' :: (text ++ ('"' :: tail)) := by
    rw [List.drop_succ_cons, List.drop_zero, dropWhile_append_all ws _ hws,
      List.dropWhile_cons_of_neg (by simp [jsonWsC])]
  unfold parse_after_colon
  rw [hvs, if_pos (by simp), List.drop_succ_cons, List.drop_zero,
    takeBeforeChar_append text tail hq]
  show some (String.mk (truncCopy text max_len)) = some (String.mk text)
  rw [truncCopy_of_lt hlen]

/-! ## Lemmas about the poll tick and the simulator -/


lemma tick_absent_log (st : WatchState) (env : TickEnv) (h0 : env.file_time = 0)
    (hlog : env.current_time - st.last_log_time > 10000) :
    check_update_status st env
      = ({ st with last_log_time := env.current_time },
         [TickOp.diagWaiting env.current_time]) := by
  unfold check_update_status
  rw [if_pos h0, if_pos hlog]

lemma tick_absent_quiet (st : WatchState) (env : TickEnv) (h0 : env.file_time = 0)
    (hlog : ¬ env.current_time - st.last_log_time > 10000) :
    check_update_status st env = (st, []) := by
  unfold check_update_status
  rw [if_pos h0, if_neg hlog]

lemma tick_skip (st : WatchState) (env : TickEnv) (h0 : env.file_time ≠ 0)
    (heq : env.file_time = st.last_modified_time) :
    check_update_status st env = (st, []) := by
  unfold check_update_status
  rw [if_neg h0, if_neg (not_not_intro heq)]

lemma tick_changed_none (st : WatchState) (env : TickEnv) (h0 : env.file_time ≠ 0)
    (hne : env.file_time ≠ st.last_modified_time)
    (hread : read_file_contents env.openOk env.fileContent JSON_BUFFER_SIZE = none) :
    check_update_status st env
      = ({ st with last_modified_time := env.file_time },
         [TickOp.setLmt env.file_time, TickOp.readFile, TickOp.diagReadError]) := by
  unfold check_update_status
  rw [if_neg h0, if_pos hne, hread]

lemma tick_changed_some (st : WatchState) (env : TickEnv) (bytes : List Char)
    (h0 : env.file_time ≠ 0) (hne : env.file_time ≠ st.last_modified_time)
    (hread : read_file_contents env.openOk env.fileContent JSON_BUFFER_SIZE = some bytes) :
    check_update_status st env
      = ({ st with
             last_modified_time := env.file_time,
             current_status := apply_parsed_fields st.current_status (bufferString bytes) },
         [TickOp.setLmt env.file_time, TickOp.readFile,
          TickOp.replaceStatus (apply_parsed_fields st.current_status (bufferString bytes))]) := by
  unfold check_update_status
  rw [if_neg h0, if_pos hne, hread]

lemma readCount_append (a b : List TickOp) :
    readCount (a ++ b) = readCount a + readCount b := by
  simp [readCount, List.filter_append]

lemma replaceCount_append (a b : List TickOp) :
    replaceCount (a ++ b) = replaceCount a + replaceCount b := by
  simp [replaceCount, List.filter_append]

lemma diagTimes_append (a b : List TickOp) :
    diagTimes (a ++ b) = diagTimes a ++ diagTimes b := by
  simp [diagTimes, List.filterMap_append]

lemma simulate_phase_step (p : Nat) :
    (simulate_update_cycle p).2 = if p + 1 ≥ 8 then 0 else p + 1 := rfl

lemma simPhase_mod (k : Nat) : simPhase k = k % 8 := by
  induction k with
  | zero => rfl
  | succ k ih =>
    show (simulate_update_cycle (simPhase k)).2 = (k + 1) % 8
    rw [ih, simulate_phase_step]
    have h8 : k % 8 < 8 := Nat.mod_lt k (by decide)
    by_cases h : k % 8 + 1 ≥ 8
    · rw [if_pos h]; omega
    · rw [if_neg h]; omega

/-- The immediate parent directory of a path, as the words of the claim
describe it (the text before the last slash); used only to compare the
claimed directory against the one the code creates. -/
def parentDirOfPath (p : String) : String :=
  String.mk (((p.data.reverse.dropWhile (fun c => !(c = '/'))).drop 1).reverse)


lemma apply_parsed_fields_spec (prev : update_status_t) (buffer : String) :
    (parse_json_value buffer "progress" 32 = none →
      (apply_parsed_fields prev buffer).progress = prev.progress) ∧
    (∀ v, parse_json_value buffer "progress" 32 = some v →
      (apply_parsed_fields prev buffer).progress = atoi v) ∧
    (parse_json_value buffer "status" 64 = none →
      (apply_parsed_fields prev buffer).status = prev.status) ∧
    (∀ v, parse_json_value buffer "status" 64 = some v →
      (apply_parsed_fields prev buffer).status = v) ∧
    (parse_json_value buffer "step" 64 = none →
      (apply_parsed_fields prev buffer).step = prev.step) ∧
    (∀ v, parse_json_value buffer "step" 64 = some v →
      (apply_parsed_fields prev buffer).step = v) := by
  cases hp : parse_json_value buffer "progress" 32 <;>
    cases hs : parse_json_value buffer "status" 64 <;>
      cases hst : parse_json_value buffer "step" 64 <;>
        simp [apply_parsed_fields, hp, hs, hst]


lemma foldTicks_absent (envs : List TickEnv) :
    ∀ st : WatchState, (∀ e ∈ envs, e.file_time = 0) →
      (foldTicks st envs).1.current_status = st.current_status ∧
      (foldTicks st envs).1.last_modified_time = st.last_modified_time ∧
      readCount (foldTicks st envs).2 = 0 ∧
      replaceCount (foldTicks st envs).2 = 0 ∧
      List.Chain' (fun a b => a + 10000 < b)
        (st.last_log_time :: diagTimes (foldTicks st envs).2) ∧
      (foldTicks st envs).1.last_log_time
        = (diagTimes (foldTicks st envs).2).getLastD st.last_log_time := by
  induction envs with
  | nil =>
    intro st _
    refine ⟨rfl, rfl, rfl, rfl, List.chain'_singleton _, rfl⟩
  | cons e rest ih =>
    intro st h
    have he : e.file_time = 0 := h e (List.mem_cons_self e rest)
    have hrest : ∀ e' ∈ rest, e'.file_time = 0 :=
      fun e' h' => h e' (List.mem_cons_of_mem e h')
    by_cases hlog : e.current_time - st.last_log_time > 10000
    · have hstep := tick_absent_log st e he hlog
      have ihh := ih { st with last_log_time := e.current_time } hrest
      simp only [foldTicks, hstep, readCount_append, replaceCount_append, diagTimes_append]
      refine ⟨ihh.1, ihh.2.1, ?_, ?_, ?_, ?_⟩
      · rw [show readCount [TickOp.diagWaiting e.current_time] = 0 from rfl, Nat.zero_add]
        exact ihh.2.2.1
      · rw [show replaceCount [TickOp.diagWaiting e.current_time] = 0 from rfl, Nat.zero_add]
        exact ihh.2.2.2.1
      · rw [show diagTimes [TickOp.diagWaiting e.current_time] = [e.current_time] from rfl,
          List.singleton_append, List.chain'_cons]
        exact ⟨by omega, ihh.2.2.2.2.1⟩
      · rw [show diagTimes [TickOp.diagWaiting e.current_time] = [e.current_time] from rfl,
          List.singleton_append, List.getLastD_cons]
        exact ihh.2.2.2.2.2
    · have hstep := tick_absent_quiet st e he hlog
      have ihh := ih st hrest
      simp only [foldTicks, hstep, List.nil_append]
      exact ihh


/-- C4 (corrected): the field extractor follows the reference scan from the
FIRST occurrence of the quoted field name on.  For every payload whose first
occurrence of the quoted key "progress" is followed by a colon, whitespace,
and a bare run of fewer than 32 digits ended by a terminator (or end of
input), the extractor returns exactly those digits; for every payload whose
first occurrence of the quoted key "status" is followed by a colon,
whitespace, and a quoted quote-free text of fewer than 64 characters, it
returns exactly that text. -/
theorem parse_json_value_extracts_fields :
    (∀ (json : String) (ws ds tail : List Char),
      dropAfterSubstr json.data (search_key "progress")
          = some (':' :: (ws ++ (ds ++ tail))) →
      (∀ c ∈ ws, jsonWsC c = true) →
      ds ≠ [] → (∀ c ∈ ds, c.isDigit = true) → ds.length < 32 →
      (∀ c ∈ tail.take 1, bareTermC c = true) →
      parse_json_value json "progress" 32 = some (String.mk ds)) ∧
    (∀ (json : String) (ws text tail : List Char),
      dropAfterSubstr json.data (search_key "status")
          = some (':' :: (ws ++ ('"' :: (text ++ ('"' :: tail))))) →
      (∀ c ∈ ws, jsonWsC c = true) →
      '"' ∉ text → text.length < 64 →
      parse_json_value json "status" 64 = some (String.mk text)) := by
  constructor
  · intro json ws ds tail h1 hws hne hds hlen htail
    have htail' : ∀ c t, tail = c :: t → bareTermC c = true := by
      intro c t e
      exact htail c (by rw [e]; simp)
    unfold parse_json_value
    rw [h1, Option.some_bind,
      show dropToChar (':' :: (ws ++ (ds ++ tail))) ':'
          = some (':' :: (ws ++ (ds ++ tail))) from by simp [dropToChar],
      Option.some_bind]
    exact parse_after_colon_bare ws ds tail 32 hws hne hds hlen htail'
  · intro json ws text tail h1 hws hq hlen
    unfold parse_json_value
    rw [h1, Option.some_bind,
      show dropToChar (':' :: (ws ++ ('"' :: (text ++ ('"' :: tail))))) ':'
          = some (':' :: (ws ++ ('"' :: (text ++ ('"' :: tail))))) from by simp [dropToChar],
      Option.some_bind]
    exact parse_after_colon_string ws text tail 64 hws hq hlen

/-- C4 counterexample: this payload contains the text `"progress": 5` with
`5` a bare integer, yet the extractor returns `"3"` — the value at the
first occurrence of the quoted key — not the digits of that `N`.  The
claim's universal "for every payload containing" is therefore false as
stated. -/
theorem parse_json_value_duplicate_key_cex :
    (∃ pre post : String,
      "\x7b\"progress\": 3, \"progress\": 5\x7d"
        = pre ++ ("\"progress\": 5" ++ post)) ∧
    parse_json_value "\x7b\"progress\": 3, \"progress\": 5\x7d" "progress" 32
      = some "3" ∧
    ("3" : String) ≠ "5" :=
  ⟨⟨"\x7b\"progress\": 3, ", "\x7d", by decide⟩, by decide, by decide⟩

/-- Witness for C4: both branches applied at concrete payloads. -/
theorem parse_json_value_extracts_fields_witness :
    parse_json_value "\x7b\"progress\": 42\x7d" "progress" 32
        = some (String.mk ['4', '2']) ∧
    parse_json_value "\x7b\"status\": \"OK now\"\x7d" "status" 64
        = some (String.mk ['O', 'K', ' ', 'n', 'o', 'w']) :=
  ⟨parse_json_value_extracts_fields.1 "\x7b\"progress\": 42\x7d" [' ']
      ['4', '2'] ['\x7d'] (by decide) (by decide) (by decide) (by decide)
      (by decide) (by decide),
   parse_json_value_extracts_fields.2 "\x7b\"status\": \"OK now\"\x7d" [' ']
      ['O', 'K', ' ', 'n', 'o', 'w'] ['\x7d'] (by decide) (by decide)
      (by decide) (by decide)⟩


/-- C5 (confirmed): the bootstrap writes the default content exactly when
the file's timestamp is 0, and re-parsing that content with the extractor
(the way a poll tick does) yields progress 0, status "System Ready", step
"Waiting for update" — the initial value of `current_status`. -/
theorem ensure_update_json_roundtrip :
    (∀ ts : Int, ts ≠ 0 → ensure_update_json_exists ts = none) ∧
    ensure_update_json_exists 0 = some default_json ∧
    (∀ prev : update_status_t, apply_parsed_fields prev default_json = current_status_init) ∧
    (parse_json_value default_json "progress" 32).map atoi
      = some current_status_init.progress ∧
    parse_json_value default_json "status" 64 = some current_status_init.status ∧
    parse_json_value default_json "step" 64 = some current_status_init.step := by
  refine ⟨fun ts h => by simp [ensure_update_json_exists, h],
    by decide, fun prev => ?_, by decide, by decide, by decide⟩
  have hp : parse_json_value default_json "progress" 32 = some "0" := by decide
  have hs : parse_json_value default_json "status" 64 = some "System Ready" := by decide
  have hst : parse_json_value default_json "step" 64 = some "Waiting for update" := by decide
  have ha : atoi "0" = 0 := by decide
  simp [apply_parsed_fields, hp, hs, hst, ha, current_status_init]

/-- Witness for C5: a non-zero timestamp leaves the file alone. -/
theorem ensure_update_json_roundtrip_witness :
    ensure_update_json_exists 5 = none :=
  ensure_update_json_roundtrip.1 5 (by decide)

/-- C6 (confirmed): starting from phase 0, tick k < 8 of the simulator
writes a blob whose parsed progress is floor(k*100/8), whose parsed status
is "System Updating...", and whose parsed step is the k-th phase label;
after 8 ticks the phase is back at 0, the next tick writes progress 0
again, and the schedule repeats with period 8 forever. -/
theorem simulate_update_cycle_schedule :
    (∀ k, k < 8 →
      (parse_json_value (simulate_update_cycle (simPhase k)).1 "progress" 32).map atoi
          = some ((k * 100 / 8 : Nat) : Int) ∧
        parse_json_value (simulate_update_cycle (simPhase k)).1 "status" 64
          = some "System Updating..." ∧
        parse_json_value (simulate_update_cycle (simPhase k)).1 "step" 64
          = update_steps[k]?) ∧
    simPhase 8 = 0 ∧
    (parse_json_value (simulate_update_cycle (simPhase 8)).1 "progress" 32).map atoi
      = some 0 ∧
    (∀ k, simPhase (k + 8) = simPhase k) := by
  refine ⟨by decide, by decide, by decide, fun k => ?_⟩
  rw [simPhase_mod, simPhase_mod, Nat.add_mod_right]

/-- Witness for C6: tick 3 writes progress 37 and the fourth phase label. -/
theorem simulate_update_cycle_schedule_witness :
    (3 : Nat) < 8 ∧
      ((parse_json_value (simulate_update_cycle (simPhase 3)).1 "progress" 32).map atoi
          = some ((3 * 100 / 8 : Nat) : Int) ∧
        parse_json_value (simulate_update_cycle (simPhase 3)).1 "status" 64
          = some "System Updating..." ∧
        parse_json_value (simulate_update_cycle (simPhase 3)).1 "step" 64
          = update_steps[3]?) :=
  ⟨by decide, simulate_update_cycle_schedule.1 3 (by decide)⟩

/-- C10 (confirmed): on every tick of the running simulator the phase is in
0..7 and the written progress is (phase*100)/8, one of
0, 12, 25, 37, 50, 62, 75, 87; it is never 100 and the clamp branch
(progress0 > 100) is unreachable; the final phase writes the step
"Update complete." with progress 87. -/
theorem simulate_update_cycle_progress_range :
    (∀ k : Nat,
      simPhase k < 8 ∧
      (parse_json_value (simulate_update_cycle (simPhase k)).1 "progress" 32).map atoi
        = some ((simPhase k * 100 / 8 : Nat) : Int) ∧
      ((simPhase k * 100 / 8 : Nat) : Int)
        ∈ ([0, 12, 25, 37, 50, 62, 75, 87] : List Int) ∧
      ((simPhase k * 100 / 8 : Nat) : Int) ≠ 100 ∧
      ¬ (simPhase k * 100) / num_phases > 100) ∧
    parse_json_value (simulate_update_cycle 7).1 "step" 64 = some "Update complete." ∧
    (parse_json_value (simulate_update_cycle 7).1 "progress" 32).map atoi = some 87 := by
  refine ⟨fun k => ?_, by decide, by decide⟩
  have hq : ∀ p, p < 8 →
      (p < 8 ∧
      (parse_json_value (simulate_update_cycle p).1 "progress" 32).map atoi
        = some ((p * 100 / 8 : Nat) : Int) ∧
      ((p * 100 / 8 : Nat) : Int) ∈ ([0, 12, 25, 37, 50, 62, 75, 87] : List Int) ∧
      ((p * 100 / 8 : Nat) : Int) ≠ 100 ∧
      ¬ (p * 100) / num_phases > 100) := by decide
  exact hq (simPhase k) (by rw [simPhase_mod]; exact Nat.mod_lt k (by decide))

/-- Witness for C10: the universal part applied at tick 0. -/
theorem simulate_update_cycle_progress_range_witness :
    simPhase 0 < 8 ∧
      (parse_json_value (simulate_update_cycle (simPhase 0)).1 "progress" 32).map atoi
        = some ((simPhase 0 * 100 / 8 : Nat) : Int) ∧
      ((simPhase 0 * 100 / 8 : Nat) : Int)
        ∈ ([0, 12, 25, 37, 50, 62, 75, 87] : List Int) ∧
      ((simPhase 0 * 100 / 8 : Nat) : Int) ≠ 100 ∧
      ¬ (simPhase 0 * 100) / num_phases > 100 :=
  simulate_update_cycle_progress_range.1 0


/-- C1 counterexample: a tick whose queried timestamp (0: file absent)
differs from the stored `last_modified_time` (5) performs zero reads, not
the "exactly one" the claim's "otherwise" branch requires. -/
theorem check_update_status_zero_ts_no_read_cex :
    (⟨0, 0, true, ['x']⟩ : TickEnv).file_time
        ≠ (⟨5, current_status_init, 0⟩ : WatchState).last_modified_time ∧
    readCount (check_update_status ⟨5, current_status_init, 0⟩
        ⟨0, 0, true, ['x']⟩).2 = 0 := by
  decide

/-- C1 (corrected): a tick whose queried timestamp equals the stored
`last_modified_time`, or is 0 (file absent), performs no read and leaves
`current_status` unchanged; a tick whose queried timestamp is non-zero and
differs performs exactly one read followed by at most one full replacement
of `current_status`; no tick ever performs more than one read. -/
theorem check_update_status_read_discipline (st : WatchState) (env : TickEnv) :
    readCount (check_update_status st env).2 ≤ 1 ∧
    (env.file_time = st.last_modified_time →
      readCount (check_update_status st env).2 = 0 ∧
      (check_update_status st env).1.current_status = st.current_status) ∧
    (env.file_time = 0 →
      readCount (check_update_status st env).2 = 0 ∧
      (check_update_status st env).1.current_status = st.current_status) ∧
    (env.file_time ≠ 0 → env.file_time ≠ st.last_modified_time →
      readCount (check_update_status st env).2 = 1 ∧
      replaceCount (check_update_status st env).2 ≤ 1 ∧
      ((check_update_status st env).2
          = [TickOp.setLmt env.file_time, TickOp.readFile, TickOp.diagReadError] ∨
        ∃ s, (check_update_status st env).2
          = [TickOp.setLmt env.file_time, TickOp.readFile, TickOp.replaceStatus s])) := by
  by_cases h0 : env.file_time = 0
  · by_cases hlog : env.current_time - st.last_log_time > 10000
    · rw [tick_absent_log st env h0 hlog]
      refine ⟨by simp [readCount], fun _ => ⟨by simp [readCount], rfl⟩,
        fun _ => ⟨by simp [readCount], rfl⟩, fun hne _ => absurd h0 hne⟩
    · rw [tick_absent_quiet st env h0 hlog]
      refine ⟨by simp [readCount], fun _ => ⟨by simp [readCount], rfl⟩,
        fun _ => ⟨by simp [readCount], rfl⟩, fun hne _ => absurd h0 hne⟩
  · by_cases heq : env.file_time = st.last_modified_time
    · rw [tick_skip st env h0 heq]
      refine ⟨by simp [readCount], fun _ => ⟨by simp [readCount], rfl⟩,
        fun hz => absurd hz h0, fun _ hne => absurd heq hne⟩
    · cases hread : read_file_contents env.openOk env.fileContent JSON_BUFFER_SIZE with
      | none =>
        rw [tick_changed_none st env h0 heq hread]
        refine ⟨by simp [readCount], fun he => absurd he heq,
          fun hz => absurd hz h0, fun _ _ => ?_⟩
        exact ⟨by simp [readCount], by simp [replaceCount], Or.inl rfl⟩
      | some bytes =>
        rw [tick_changed_some st env bytes h0 heq hread]
        refine ⟨by simp [readCount], fun he => absurd he heq,
          fun hz => absurd hz h0, fun _ _ => ?_⟩
        exact ⟨by simp [readCount], by simp [replaceCount],
          Or.inr ⟨apply_parsed_fields st.current_status (bufferString bytes), rfl⟩⟩

/-- Witness for C1: a changed, readable tick performs exactly one read. -/
theorem check_update_status_read_discipline_witness :
    readCount (check_update_status ⟨0, current_status_init, 0⟩
        ⟨7, 0, true, ("\x7b\x7d").data⟩).2 = 1 ∧
    replaceCount (check_update_status ⟨0, current_status_init, 0⟩
        ⟨7, 0, true, ("\x7b\x7d").data⟩).2 ≤ 1 :=
  have h := (check_update_status_read_discipline ⟨0, current_status_init, 0⟩
    ⟨7, 0, true, ("\x7b\x7d").data⟩).2.2.2 (by decide) (by decide)
  ⟨h.1, h.2.1⟩


/-- C2 (confirmed): on a successfully-read changed tick, the stored status
is the previous status with each of the three fields overwritten only when
its extraction succeeds (`progress` through `atoi`); a field whose
extraction fails keeps its previous value; and the store changes only by
the single full replacement visible in the trace. -/
theorem check_update_status_field_frame (st : WatchState) (env : TickEnv)
    (bytes : List Char)
    (h0 : env.file_time ≠ 0) (hne : env.file_time ≠ st.last_modified_time)
    (hread : read_file_contents env.openOk env.fileContent JSON_BUFFER_SIZE
        = some bytes) :
    (check_update_status st env).1.current_status
        = apply_parsed_fields st.current_status (bufferString bytes) ∧
    (parse_json_value (bufferString bytes) "progress" 32 = none →
      (check_update_status st env).1.current_status.progress
        = st.current_status.progress) ∧
    (∀ v, parse_json_value (bufferString bytes) "progress" 32 = some v →
      (check_update_status st env).1.current_status.progress = atoi v) ∧
    (parse_json_value (bufferString bytes) "status" 64 = none →
      (check_update_status st env).1.current_status.status
        = st.current_status.status) ∧
    (∀ v, parse_json_value (bufferString bytes) "status" 64 = some v →
      (check_update_status st env).1.current_status.status = v) ∧
    (parse_json_value (bufferString bytes) "step" 64 = none →
      (check_update_status st env).1.current_status.step
        = st.current_status.step) ∧
    (∀ v, parse_json_value (bufferString bytes) "step" 64 = some v →
      (check_update_status st env).1.current_status.step = v) ∧
    (check_update_status st env).2
      = [TickOp.setLmt env.file_time, TickOp.readFile,
         TickOp.replaceStatus
           (apply_parsed_fields st.current_status (bufferString bytes))] := by
  rw [tick_changed_some st env bytes h0 hne hread]
  have hspec := apply_parsed_fields_spec st.current_status (bufferString bytes)
  exact ⟨rfl, hspec.1, hspec.2.1, hspec.2.2.1, hspec.2.2.2.1,
    hspec.2.2.2.2.1, hspec.2.2.2.2.2, rfl⟩

/-- Witness for C2: a payload carrying only `progress` updates that field
and keeps the bootstrap-era status and step texts. -/
theorem check_update_status_field_frame_witness :
    (check_update_status ⟨0, current_status_init, 0⟩
          ⟨7, 0, true, ("\x7b\"progress\": 4\x7d").data⟩).1.current_status
        = apply_parsed_fields current_status_init
            (bufferString (("\x7b\"progress\": 4\x7d").data)) ∧
    (check_update_status ⟨0, current_status_init, 0⟩
          ⟨7, 0, true, ("\x7b\"progress\": 4\x7d").data⟩).1.current_status.progress
        = atoi "4" :=
  have h := check_update_status_field_frame ⟨0, current_status_init, 0⟩
    ⟨7, 0, true, ("\x7b\"progress\": 4\x7d").data⟩
    (("\x7b\"progress\": 4\x7d").data) (by decide) (by decide) (by decide)
  ⟨h.1, h.2.2.1 "4" (by decide)⟩

/-- C3 (confirmed): on a non-zero, changed timestamp the tick stores the
new timestamp before the read is attempted (the trace starts with the
update, then the read); if the read then fails, a diagnostic is emitted and
the status store is untouched; and any later tick seeing the same
timestamp performs no read, so that file version is skipped until the
timestamp changes again. -/
theorem check_update_status_lmt_advance (st : WatchState) (env : TickEnv)
    (h0 : env.file_time ≠ 0) (hne : env.file_time ≠ st.last_modified_time) :
    (check_update_status st env).1.last_modified_time = env.file_time ∧
    (∃ rest, (check_update_status st env).2
        = TickOp.setLmt env.file_time :: TickOp.readFile :: rest) ∧
    (read_file_contents env.openOk env.fileContent JSON_BUFFER_SIZE = none →
      (check_update_status st env).1.current_status = st.current_status ∧
      (check_update_status st env).2
        = [TickOp.setLmt env.file_time, TickOp.readFile, TickOp.diagReadError]) ∧
    (∀ env2 : TickEnv, env2.file_time = env.file_time →
      readCount (check_update_status (check_update_status st env).1 env2).2 = 0 ∧
      (check_update_status (check_update_status st env).1 env2).1.current_status
        = (check_update_status st env).1.current_status) := by
  have hskip : ∀ st' : WatchState, st'.last_modified_time = env.file_time →
      ∀ env2 : TickEnv, env2.file_time = env.file_time →
      check_update_status st' env2 = (st', []) := by
    intro st' hlmt env2 h2
    exact tick_skip st' env2 (by rw [h2]; exact h0) (by rw [h2, hlmt])
  cases hread : read_file_contents env.openOk env.fileContent JSON_BUFFER_SIZE with
  | none =>
    rw [tick_changed_none st env h0 hne hread]
    refine ⟨rfl, ⟨[TickOp.diagReadError], rfl⟩, fun _ => ⟨rfl, rfl⟩, ?_⟩
    intro env2 h2
    rw [hskip _ rfl env2 h2]
    exact ⟨rfl, rfl⟩
  | some bytes =>
    rw [tick_changed_some st env bytes h0 hne hread]
    refine ⟨rfl, ⟨[TickOp.replaceStatus
        (apply_parsed_fields st.current_status (bufferString bytes))], rfl⟩,
      fun hn => Option.noConfusion hn, ?_⟩
    intro env2 h2
    rw [hskip _ rfl env2 h2]
    exact ⟨rfl, rfl⟩

/-- Witness for C3: a failed read (open failure) still advances the stored
timestamp, emits the diagnostic, and the next tick with the same timestamp
reads nothing. -/
theorem check_update_status_lmt_advance_witness :
    (check_update_status ⟨0, current_status_init, 0⟩ ⟨7, 0, false, []⟩).1.last_modified_time
        = (⟨7, 0, false, []⟩ : TickEnv).file_time ∧
    ((check_update_status ⟨0, current_status_init, 0⟩ ⟨7, 0, false, []⟩).1.current_status
        = current_status_init ∧
      (check_update_status ⟨0, current_status_init, 0⟩ ⟨7, 0, false, []⟩).2
        = [TickOp.setLmt 7, TickOp.readFile, TickOp.diagReadError]) ∧
    readCount (check_update_status
        (check_update_status ⟨0, current_status_init, 0⟩ ⟨7, 0, false, []⟩).1
        ⟨7, 9999, false, []⟩).2 = 0 :=
  have h := check_update_status_lmt_advance ⟨0, current_status_init, 0⟩
    ⟨7, 0, false, []⟩ (by decide) (by decide)
  ⟨h.1, h.2.2.1 (by decide), (h.2.2.2 ⟨7, 9999, false, []⟩ (by decide)).1⟩

/-! ## Claim theorems (continued) -/


/-- C7 (confirmed): over any run of ticks that all see timestamp 0 (file
absent), the status store and the stored timestamp never change, no read
and no replacement happens, and the waiting-for-file diagnostics are more
than 10000 ms apart (each is emitted only when more than 10000 ms of
wall-clock time passed since the last one, or since the initial
`last_log_time`); a single absent tick emits the diagnostic exactly when
`current_time - last_log_time > 10000`. -/
theorem check_update_status_absent_rate_limit (st : WatchState)
    (envs : List TickEnv) (h : ∀ e ∈ envs, e.file_time = 0) :
    (foldTicks st envs).1.current_status = st.current_status ∧
    (foldTicks st envs).1.last_modified_time = st.last_modified_time ∧
    readCount (foldTicks st envs).2 = 0 ∧
    replaceCount (foldTicks st envs).2 = 0 ∧
    List.Chain' (fun a b => a + 10000 < b)
      (st.last_log_time :: diagTimes (foldTicks st envs).2) ∧
    (∀ (st' : WatchState) (e : TickEnv), e.file_time = 0 →
      check_update_status st' e
        = if e.current_time - st'.last_log_time > 10000 then
            ({ st' with last_log_time := e.current_time },
             [TickOp.diagWaiting e.current_time])
          else (st', [])) := by
  have r := foldTicks_absent envs st h
  refine ⟨r.1, r.2.1, r.2.2.1, r.2.2.2.1, r.2.2.2.2.1, ?_⟩
  intro st' e he
  by_cases hlog : e.current_time - st'.last_log_time > 10000
  · rw [tick_absent_log st' e he hlog, if_pos hlog]
  · rw [tick_absent_quiet st' e he hlog, if_neg hlog]

/-- Witness for C7: two absent ticks at times 5000 and 20000 starting from
`last_log_time = 0` emit exactly one diagnostic, at 20000. -/
theorem check_update_status_absent_rate_limit_witness :
    (foldTicks ⟨3, current_status_init, 0⟩
        [⟨0, 5000, true, []⟩, ⟨0, 20000, true, []⟩]).1.current_status
      = current_status_init ∧
    (foldTicks ⟨3, current_status_init, 0⟩
        [⟨0, 5000, true, []⟩, ⟨0, 20000, true, []⟩]).1.last_modified_time = 3 ∧
    readCount (foldTicks ⟨3, current_status_init, 0⟩
        [⟨0, 5000, true, []⟩, ⟨0, 20000, true, []⟩]).2 = 0 ∧
    replaceCount (foldTicks ⟨3, current_status_init, 0⟩
        [⟨0, 5000, true, []⟩, ⟨0, 20000, true, []⟩]).2 = 0 ∧
    List.Chain' (fun a b => a + 10000 < b)
      ((0 : Int) :: diagTimes (foldTicks ⟨3, current_status_init, 0⟩
        [⟨0, 5000, true, []⟩, ⟨0, 20000, true, []⟩]).2) :=
  have h := check_update_status_absent_rate_limit ⟨3, current_status_init, 0⟩
    [⟨0, 5000, true, []⟩, ⟨0, 20000, true, []⟩] (by decide)
  ⟨h.1, h.2.1, h.2.2.1, h.2.2.2.1, h.2.2.2.2.1⟩

/-- C8 counterexample: when the first open of the real status-file path
fails, the directory the code creates is the fixed relative "tmp", not the
immediate parent directory of that path, which is never attempted. -/
theorem write_file_contents_parent_dir_cex :
    FsOp.makeDir "tmp" ∈ (write_file_contents
        "/var/lib/update_tracker/current_update_step.json" "x" ⟨false, true, 1⟩).2 ∧
    parentDirOfPath "/var/lib/update_tracker/current_update_step.json"
      = "/var/lib/update_tracker" ∧
    FsOp.makeDir (parentDirOfPath "/var/lib/update_tracker/current_update_step.json")
      ∉ (write_file_contents
        "/var/lib/update_tracker/current_update_step.json" "x" ⟨false, true, 1⟩).2 ∧
    ("tmp" : String) ≠ "/var/lib/update_tracker" := by
  decide

/-- C8 (corrected): when the initial open-for-write fails the code creates
the fixed directory "tmp" (relative to the working directory — not the
parent of the target path) once and retries the open; the call succeeds
exactly when one of the opens succeeded and the whole content was written,
and fails whenever both opens fail. -/
theorem write_file_contents_retry (filepath content : String) (env : WriteEnv) :
    (env.open1 = false →
      (write_file_contents filepath content env).2
        = [FsOp.openWrite filepath, FsOp.makeDir "tmp", FsOp.openWrite filepath]) ∧
    (env.open1 = true →
      (write_file_contents filepath content env).2 = [FsOp.openWrite filepath]) ∧
    ((write_file_contents filepath content env).1 = true ↔
      ((env.open1 = true ∨ env.open2 = true) ∧ env.bytesWritten = content.length)) ∧
    (env.open1 = false → env.open2 = false →
      (write_file_contents filepath content env).1 = false) := by
  rcases env with ⟨o1, o2, bw⟩
  cases o1 <;> cases o2 <;> simp [write_file_contents]

/-- Witness for C8: first open fails, retry succeeds, both bytes written. -/
theorem write_file_contents_retry_witness :
    (write_file_contents "p" "ab" ⟨false, true, 2⟩).2
        = [FsOp.openWrite "p", FsOp.makeDir "tmp", FsOp.openWrite "p"] ∧
    ((write_file_contents "p" "ab" ⟨false, true, 2⟩).1 = true ↔
      (((false : Bool) = true ∨ (true : Bool) = true) ∧ 2 = ("ab" : String).length)) :=
  have h := write_file_contents_retry "p" "ab" ⟨false, true, 2⟩
  ⟨h.1 rfl, h.2.2.1⟩

/-- C9 (confirmed): a zero-byte file opens successfully yet
`read_file_contents` reports failure (`bytes_read > 0` fails), so a
changed tick over an empty file takes the read-failure path: diagnostic,
no replacement, previous status retained. -/
theorem read_file_contents_empty_fails :
    (∀ maxsz : Nat, read_file_contents true [] maxsz = none) ∧
    (∀ (st : WatchState) (env : TickEnv),
      env.file_time ≠ 0 → env.file_time ≠ st.last_modified_time →
      env.openOk = true → env.fileContent = [] →
      (check_update_status st env).1.current_status = st.current_status ∧
      TickOp.diagReadError ∈ (check_update_status st env).2 ∧
      replaceCount (check_update_status st env).2 = 0) := by
  constructor
  · intro maxsz
    simp [read_file_contents]
  · intro st env h0 hne ho hc
    have hread : read_file_contents env.openOk env.fileContent JSON_BUFFER_SIZE
        = none := by
      rw [ho, hc]
      simp [read_file_contents]
    rw [tick_changed_none st env h0 hne hread]
    exact ⟨rfl, by simp, by simp [replaceCount]⟩

/-- Witness for C9: an empty file at a fresh timestamp leaves the
bootstrap status in place and emits the read-failure diagnostic. -/
theorem read_file_contents_empty_fails_witness :
    read_file_contents true [] 512 = none ∧
    ((check_update_status ⟨0, current_status_init, 0⟩ ⟨7, 0, true, []⟩).1.current_status
        = current_status_init ∧
      TickOp.diagReadError
        ∈ (check_update_status ⟨0, current_status_init, 0⟩ ⟨7, 0, true, []⟩).2 ∧
      replaceCount (check_update_status ⟨0, current_status_init, 0⟩
        ⟨7, 0, true, []⟩).2 = 0) :=
  ⟨read_file_contents_empty_fails.1 512,
   read_file_contents_empty_fails.2 ⟨0, current_status_init, 0⟩ ⟨7, 0, true, []⟩
     (by decide) (by decide) rfl rfl⟩

end UpdateTracker
